import Mathlib

/-!
Verification of the mcp-federation-core dispatch layer.

Shallow embedding of the Python sources:
- `src/mcp-servers/kimi-k2-resilient-enhanced/server.py`
  (CircuitBreaker, EnhancedDatabase cache, ParallelProcessor, WebhookManager)
- `src/mcp-servers/converse-mcp-enhanced/src/server.py`
  (OptimizedAPIManager: provider ordering, send_message, usage stats)
- `src/mcp-servers/converse-mcp-enhanced/src/optimizations.py` (ModelOptimizer cache)
- `src/mcp-servers/converse-mcp-enhanced/src/ollama_manager.py` (model-name resolution)

Wall-clock instants and money amounts (Python floats) are modelled as rationals;
SHA-256, HMAC-SHA256 and JSON serialisation are abstract function parameters,
since only their structural use matters for the claims below.
-/

namespace MCPFed

/-! ## Circuit breaker
`class CircuitBreaker` in kimi-k2-resilient-enhanced/server.py (lines 480-512). -/

inductive BreakerState
  | closed
  | opened
  | halfOpen
  deriving DecidableEq, Repr

/-- Outcome of the wrapped coroutine `fn` when it is actually invoked. -/
inductive CallOutcome
  | success (v : String)
  | failure (e : String)
  deriving DecidableEq, Repr

/-- What `CircuitBreaker.call` does from the caller's point of view:
return `fn`'s value or let an exception propagate. -/
inductive CallResult
  | ok (v : String)
  | raised (e : String)
  deriving DecidableEq, Repr

structure CircuitBreaker where
  failure_threshold : Nat := 5
  timeout : ℚ := 60
  failure_count : Nat := 0
  last_failure_time : Option ℚ := none
  state : BreakerState := .closed
  deriving DecidableEq, Repr

/-- Result of one `call`: the caller-visible result, the mutated breaker, and
whether `fn` was actually invoked (`await func()` reached). -/
structure CallStep where
  result : CallResult
  breaker : CircuitBreaker
  invoked : Bool
  deriving DecidableEq, Repr

/-- `if self.last_failure_time and (time.time() - self.last_failure_time) > self.timeout`:
Python truthiness makes both `None` and `0.0` fail the first test. -/
def cooldownExpired (cb : CircuitBreaker) (now : ℚ) : Bool :=
  match cb.last_failure_time with
  | none => false
  | some t => t != 0 && decide (now - t > cb.timeout)

/-- The `try`/`except` body of `call`, reached once the open-state guard has
been passed (and the state possibly moved to half-open). -/
def CircuitBreaker.callBody (cb : CircuitBreaker) (now : ℚ) (outcome : CallOutcome) : CallStep :=
  match outcome with
  | .success v =>
      if cb.state = .halfOpen then
        ⟨.ok v, { cb with state := .closed, failure_count := 0 }, true⟩
      else
        ⟨.ok v, cb, true⟩
  | .failure e =>
      let cb1 := { cb with failure_count := cb.failure_count + 1, last_failure_time := some now }
      if cb.failure_threshold ≤ cb1.failure_count then
        ⟨.raised e, { cb1 with state := .opened }, true⟩
      else
        ⟨.raised e, cb1, true⟩

/-- `CircuitBreaker.call(func)`, with the invocation of `func` replaced by its
outcome and the wall clock passed explicitly. -/
def CircuitBreaker.call (cb : CircuitBreaker) (now : ℚ) (outcome : CallOutcome) : CallStep :=
  match cb.state with
  | .opened =>
      if cooldownExpired cb now then
        CircuitBreaker.callBody { cb with state := .halfOpen } now outcome
      else
        ⟨.raised "Circuit breaker is open", cb, false⟩
  | _ => CircuitBreaker.callBody cb now outcome

/-- Run a sequence of timed call attempts through the breaker. -/
def CircuitBreaker.runTrace (cb : CircuitBreaker) : List (ℚ × CallOutcome) → CircuitBreaker
  | [] => cb
  | (t, o) :: rest => ((cb.call t o).breaker).runTrace rest

def isFailureOutcome : CallOutcome → Bool
  | .failure _ => true
  | .success _ => false

/-- Number of failure outcomes in a trace. -/
def countFailures (tr : List (ℚ × CallOutcome)) : Nat :=
  (tr.filter (fun p => isFailureOutcome p.2)).length

/-! ## Keyed stores
Python dicts and SQLite tables keyed by a unique string are both modelled as
association lists where an insert replaces any previous binding of the key. -/

def lookupAssoc {β : Type} (c : List (String × β)) (k : String) : Option β :=
  (c.find? (fun kv => kv.1 == k)).map (fun kv => kv.2)

def setAssoc {β : Type} (c : List (String × β)) (k : String) (v : β) : List (String × β) :=
  (k, v) :: c.filter (fun kv => kv.1 != k)

def eraseAssoc {β : Type} (c : List (String × β)) (k : String) : List (String × β) :=
  c.filter (fun kv => kv.1 != k)

/-! ## ModelOptimizer response cache
`cache_response` / `get_cached_response` in converse-mcp-enhanced/src/optimizations.py
(lines 112-134). Entries carry their insertion timestamp and ttl in seconds. -/

structure RespEntry where
  response : String
  timestamp : ℚ
  ttl : ℚ
  deriving DecidableEq, Repr

def cache_response (c : List (String × RespEntry)) (prompt_hash response : String)
    (now ttl : ℚ) : List (String × RespEntry) :=
  setAssoc c prompt_hash ⟨response, now, ttl⟩

/-- Returns the cached response if `time.time() - timestamp < ttl`, deleting the
entry when it has expired; also returns the cache after the lookup. -/
def get_cached_response (c : List (String × RespEntry)) (prompt_hash : String)
    (now : ℚ) : Option String × List (String × RespEntry) :=
  match lookupAssoc c prompt_hash with
  | some e =>
      if now - e.timestamp < e.ttl then (some e.response, c)
      else (none, eraseAssoc c prompt_hash)
  | none => (none, c)

/-! ## EnhancedDatabase result cache
`get_cached_result` / `cache_result` in kimi-k2-resilient-enhanced/server.py
(lines 240-280), over the `result_cache` SQLite table. -/

structure DbEntry where
  result : String
  hit_count : Nat
  expires_at : ℚ
  last_accessed : ℚ
  deriving DecidableEq, Repr

/-- `cache_key = f"{content_hash}_{analysis_type}_{model}"`. -/
def cacheKey (sha256hex : String → String) (content analysis_type modelStr : String) : String :=
  sha256hex content ++ "_" ++ analysis_type ++ "_" ++ modelStr

/-- `INSERT OR REPLACE INTO result_cache ...` with
`expires_at = datetime.now() + timedelta(hours=ttl_hours)`; the unnamed
`hit_count` column takes its schema default 0 and `last_accessed` the current time. -/
def cache_result (sha256hex : String → String) (db : List (String × DbEntry))
    (content analysis_type modelStr result : String) (now : ℚ) (ttl_hours : ℚ) :
    List (String × DbEntry) :=
  setAssoc db (cacheKey sha256hex content analysis_type modelStr)
    ⟨result, 0, now + ttl_hours * 3600, now⟩

/-- `SELECT result FROM result_cache WHERE cache_key = ? AND datetime('now') < expires_at`,
then on a hit `UPDATE ... SET hit_count = hit_count + 1, last_accessed = CURRENT_TIMESTAMP`.
Returns the looked-up value and the table after the lookup. -/
def get_cached_result (sha256hex : String → String) (db : List (String × DbEntry))
    (content analysis_type modelStr : String) (now : ℚ) :
    Option String × List (String × DbEntry) :=
  let key := cacheKey sha256hex content analysis_type modelStr
  match lookupAssoc db key with
  | some e =>
      if now < e.expires_at then
        (some e.result,
         setAssoc db key { e with hit_count := e.hit_count + 1, last_accessed := now })
      else (none, db)
  | none => (none, db)

/-! ## Batch job processing
`ProcessingJob`, `ParallelProcessor._process_single_job` and
`ParallelProcessor.process_batch` in kimi-k2-resilient-enhanced/server.py
(lines 81-97, 327-406). `asyncio.gather` preserves the order of results, so the
batch is modelled as a sequential fold over the job list; the claims proved
below are about per-job outcomes and counts, which do not depend on the
interleaving. -/

structure PJob where
  job_id : String
  content : String
  analysis_type : String
  status : String
  model_used : Option String := none
  result : Option String := none
  error_message : Option String := none
  completed_at : Option ℚ := none
  deriving DecidableEq, Repr

/-- `job.model_used or "moonshot-v1-32k"`: Python `or` falls through on `None`
and on the empty string. -/
def pyOrDefaultModel : Option String → String
  | none => "moonshot-v1-32k"
  | some s => if s = "" then "moonshot-v1-32k" else s

/-- The API (`else`) branch of `_process_single_job`, together with its
exception handler. On success the job is marked completed and the result cached
under `model_used` (default ttl 24 hours) — unless `model_used` is `None`: then
`cache_result` binds NULL into the `model_used TEXT NOT NULL` column of
`result_cache` (no default), `INSERT OR REPLACE` aborts, sqlite3 raises
IntegrityError and the handler flips the already-filled-in job to failed with
nothing cached. An API exception likewise marks the job failed. Either way the
API client was invoked. -/
def processJobMiss (sha256hex : String → String) (api : PJob → Except String String)
    (db : List (String × DbEntry)) (job : PJob) (now : ℚ) :
    PJob × List (String × DbEntry) × Bool :=
  match api job with
  | .ok r =>
      match job.model_used with
      | some mu =>
          ({ job with result := some r, status := "completed", completed_at := some now },
           cache_result sha256hex db job.content job.analysis_type mu r now 24, true)
      | none =>
          ({ job with
              result := some r
              status := "failed"
              error_message := some "NOT NULL constraint failed: result_cache.model_used"
              completed_at := some now },
           db, true)
  | .error e =>
      ({ job with status := "failed", error_message := some e, completed_at := some now },
       db, true)

/-- `_process_single_job`: cache lookup under `model_used or "moonshot-v1-32k"`;
the hit test is Python `if cached:`, which is false both for `None` and for an
empty-string cached result, so the latter falls through to the API branch (the
lookup's hit-count bump has already happened). The Boolean records whether the
API client was invoked. -/
def process_single_job (sha256hex : String → String)
    (api : PJob → Except String String) (db : List (String × DbEntry))
    (job : PJob) (now : ℚ) : PJob × List (String × DbEntry) × Bool :=
  let g := get_cached_result sha256hex db job.content job.analysis_type
    (pyOrDefaultModel job.model_used) now
  match g.1 with
  | some v =>
      if v == "" then processJobMiss sha256hex api g.2 job now
      else ({ job with result := some v, status := "completed", completed_at := some now },
            g.2, false)
  | none => processJobMiss sha256hex api g.2 job now

/-- Process the jobs of a batch in order, threading the cache. -/
def process_jobs (sha256hex : String → String) (api : PJob → Except String String)
    (now : ℚ) : List (String × DbEntry) → List PJob → List PJob × List (String × DbEntry)
  | db, [] => ([], db)
  | db, j :: rest =>
      let s := process_single_job sha256hex api db j now
      let restOut := process_jobs sha256hex api now s.2.1 rest
      (s.1 :: restOut.1, restOut.2)

structure BatchOutcome where
  jobs : List PJob
  completed_count : Nat
  failed_count : Nat
  status : String
  deriving Repr

/-- `process_batch`: run every job, then
`completed = sum(1 for r in results if ... r.status == 'completed')` (same for
`failed`) and `batch.status = 'completed' if failed == 0 else 'partial'`. -/
def process_batch (sha256hex : String → String) (api : PJob → Except String String)
    (db : List (String × DbEntry)) (now : ℚ) (jobs : List PJob) :
    BatchOutcome × List (String × DbEntry) :=
  let out := process_jobs sha256hex api now db jobs
  let completed := (out.1.filter (fun j => j.status == "completed")).length
  let failed := (out.1.filter (fun j => j.status == "failed")).length
  ({ jobs := out.1, completed_count := completed, failed_count := failed,
     status := if failed = 0 then "completed" else "partial" }, out.2)

/-! ## OptimizedAPIManager: providers, routing, send_message, usage stats
converse-mcp-enhanced/src/server.py. -/

inductive PStatus
  | available
  | rateLimited
  | apiError
  | notConfigured
  | disabled
  deriving DecidableEq, BEq, Repr

structure Provider where
  name : String
  priority : Nat
  enabled : Bool
  api_key : Option String := none
  cost_per_1k_tokens : ℚ := 0
  is_free : Bool := false
  fallback_on_error : Bool := true
  rate_limit_reset : Option ℚ := none
  status : PStatus := .notConfigured
  usage_count : Nat := 0
  tokens_used : Nat := 0
  total_cost : ℚ := 0
  deriving DecidableEq, BEq, Repr

structure UsageStats where
  total_requests : Nat := 0
  ollama_requests : Nat := 0
  paid_requests : Nat := 0
  total_tokens : Nat := 0
  ollama_tokens : Nat := 0
  paid_tokens : Nat := 0
  total_cost : ℚ := 0
  cost_saved : ℚ := 0
  deriving DecidableEq, Repr

/-- The manager state used by routing: the provider dict (values in insertion
order, names unique in practice), the loaded user preference, and
`self.ollama_manager.is_available`. -/
structure APIManager where
  providers : List Provider
  user_preference : Option String := none
  ollama_is_available : Bool := false
  deriving Repr

/-- Stable sort by ascending `priority`, matching Python's stable `sorted`. -/
def insertByPriority (p : Provider) : List Provider → List Provider
  | [] => [p]
  | q :: qs => if p.priority ≤ q.priority then p :: q :: qs else q :: insertByPriority p qs

def sortByPriority : List Provider → List Provider
  | [] => []
  | p :: ps => insertByPriority p (sortByPriority ps)

/-- The `for p in available: if p.name == pref: preferred = p else others.append(p)`
loop: the last name match wins, the rest keep their order. -/
def pickPreferred (pref : String) (available : List Provider) :
    Option Provider × List Provider :=
  available.foldl
    (fun acc p => if p.name == pref then (some p, acc.2) else (acc.1, acc.2 ++ [p]))
    (none, [])

/-- `next((p for p in others if p.name == "ollama"), None)` followed by
`others.remove(ollama)`: extract the first matching element. -/
def extractFirst (f : Provider → Bool) : List Provider → Option Provider × List Provider
  | [] => (none, [])
  | x :: xs =>
      if f x then (some x, xs)
      else
        let r := extractFirst f xs
        (r.1, x :: r.2)

/-- `get_available_providers` (lines 432-466): filter enabled+available, then
reorder around the user preference keeping Ollama first when present. -/
def get_available_providers (m : APIManager) (respect_user_preference : Bool := true) :
    List Provider :=
  let available := m.providers.filter (fun p => p.enabled && p.status == PStatus.available)
  match m.user_preference with
  | some pref =>
      if respect_user_preference && pref != "" then
        let pick := pickPreferred pref available
        match pick.1 with
        | some preferred =>
            let ex := extractFirst (fun p => p.name == "ollama") pick.2
            match ex.1 with
            | some ollamaP =>
                if preferred.name ≠ "ollama" then
                  ollamaP :: preferred :: sortByPriority ex.2
                else
                  ollamaP :: sortByPriority ex.2
            | none => preferred :: sortByPriority pick.2
        | none => sortByPriority available
      else sortByPriority available
  | none => sortByPriority available

def findProvider (m : APIManager) (n : String) : Option Provider :=
  m.providers.find? (fun p => p.name == n)

/-- Mutation `self.providers[n].status = st` on the shared dict entry. -/
def setProviderStatus (m : APIManager) (n : String) (st : PStatus) : APIManager :=
  { m with providers := m.providers.map (fun p => if p.name == n then { p with status := st } else p) }

/-- The candidate list built by `send_message` when `not model or model == "auto"`
(lines 557-582): if Ollama is present, detected as available and enabled, it is
forced first (its status set to AVAILABLE) followed by the other available
providers; otherwise the ordinary availability ordering is used. -/
def build_auto_candidates (m : APIManager) : List Provider :=
  match findProvider m "ollama" with
  | some ollamaP =>
      if m.ollama_is_available then
        if ollamaP.enabled then
          let m1 := setProviderStatus m "ollama" .available
          { ollamaP with status := .available } ::
            (get_available_providers m1).filter (fun p => p.name != "ollama")
        else get_available_providers m
      else get_available_providers m
  | none => get_available_providers m

/-- `_get_configuration_error` (lines 656-669). -/
def configuration_error_msg : String :=
  "ERROR: No AI APIs configured or available.\n\n" ++
  "To use this MCP, you need at least one of:\n" ++
  "1. Ollama (FREE) - Install from https://ollama.ai\n" ++
  "2. API Keys - Set environment variables:\n" ++
  "   - ANTHROPIC_API_KEY\n" ++
  "   - OPENAI_API_KEY\n" ++
  "   - GEMINI_API_KEY\n" ++
  "   - XAI_API_KEY\n" ++
  "   - PERPLEXITY_API_KEY\n\n" ++
  "Ollama is recommended for cost-free operation."

/-- `_get_configuration_help` (lines 671-683); `p.api_key` is truthy only for a
non-empty key string. -/
def configuration_help (providers : List Provider) : String :=
  let configured := (providers.filter
    (fun p => (match p.api_key with | some s => s ≠ "" | none => false : Bool) || p.name == "ollama")).map
    (fun p => p.name)
  if configured.contains "ollama" then
    "Check your API keys and network connection."
  else
    "💡 TIP: Install Ollama for FREE local AI:\n" ++
    "1. Download from https://ollama.ai\n" ++
    "2. Run: ollama pull llama2\n" ++
    "3. Restart this MCP\n"

/-- The aggregated failure raised when the candidate loop exhausts (lines 650-654). -/
def aggregated_error (allProviders : List Provider) (errors : List String) : String :=
  "All AI providers failed. Errors:\n" ++ String.intercalate "\n" errors ++ "\n\n" ++
    configuration_help allProviders

/-- `if provider.rate_limit_reset and datetime.now() < provider.rate_limit_reset: continue`. -/
def skipRateLimited (now : ℚ) (p : Provider) : Bool :=
  match p.rate_limit_reset with
  | some t => decide (now < t)
  | none => false

inductive SendOutcome
  | success (response : String) (provider : String)
  | failed (msg : String)
  deriving DecidableEq, Repr

/-- The provider loop of `send_message` (lines 603-654), with `_call_provider`
abstracted into `call`. A rate-limited provider is skipped without recording an
error; a failing provider appends `"{name}: {error}"`; `fallback_on_error = False`
breaks out to the aggregated failure. -/
def send_loop (allProviders : List Provider) (call : Provider → Except String String)
    (now : ℚ) : List Provider → List String → SendOutcome
  | [], errors => .failed (aggregated_error allProviders errors)
  | p :: rest, errors =>
      if skipRateLimited now p then send_loop allProviders call now rest errors
      else
        match call p with
        | .ok response => .success response p.name
        | .error e =>
            if p.fallback_on_error then
              send_loop allProviders call now rest (errors ++ [p.name ++ ": " ++ e])
            else .failed (aggregated_error allProviders (errors ++ [p.name ++ ": " ++ e]))

/-- `send_message` from the point where the candidate list is fixed
(lines 597-654): empty candidates raise the configuration error, otherwise the
loop runs with an empty error accumulator. -/
def send_message_from (m : APIManager) (call : Provider → Except String String)
    (now : ℚ) (candidates : List Provider) : SendOutcome :=
  if candidates.isEmpty then .failed configuration_error_msg
  else send_loop m.providers call now candidates []

/-- Declarative description of the error lines accumulated by `send_loop` when
every provider it reaches fails: skipped providers contribute nothing, each
attempted failure contributes its line, and a non-fallback failure ends the list. -/
def attempted_errors (call : Provider → Except String String) (now : ℚ) :
    List Provider → List String
  | [] => []
  | p :: rest =>
      if skipRateLimited now p then attempted_errors call now rest
      else
        match call p with
        | .ok _ => []
        | .error e =>
            (p.name ++ ": " ++ e) ::
              (if p.fallback_on_error then attempted_errors call now rest else [])

/-- Python `str.split()` word count (whitespace-separated, empties dropped),
used by `_update_usage_stats` to estimate tokens. -/
def isPySpace (c : Char) : Bool :=
  c == ' ' || c == '\t' || c == '\n' || c == '\r' || c == '\x0b' || c == '\x0c'

def countWordsAux : List Char → Bool → Nat
  | [], _ => 0
  | c :: cs, inWord =>
      if isPySpace c then countWordsAux cs false
      else (if inWord then 0 else 1) + countWordsAux cs true

def pyWordCount (s : String) : Nat := countWordsAux s.data false

/-- `min((p.cost_per_1k_tokens for p in providers if cost > 0 and status == AVAILABLE), default=0.001)`. -/
def cheapest_paid_cost (providers : List Provider) : ℚ :=
  let costs := (providers.filter
    (fun p => decide (0 < p.cost_per_1k_tokens) && p.status == PStatus.available)).map
    (fun p => p.cost_per_1k_tokens)
  match costs with
  | [] => 1 / 1000
  | c :: cs => cs.foldl min c

/-- `_update_usage_stats` (lines 685-713): token estimate from word counts; an
Ollama outcome books savings against the cheapest available paid price, any
other outcome books spend. Returns the new stats and the mutated provider. -/
def update_usage_stats (allProviders : List Provider) (stats : UsageStats)
    (p : Provider) (message response : String) : UsageStats × Provider :=
  let tokens := pyWordCount message + pyWordCount response
  let s1 := { stats with total_requests := stats.total_requests + 1,
                         total_tokens := stats.total_tokens + tokens }
  let s2 :=
    if p.name == "ollama" then
      { s1 with ollama_requests := s1.ollama_requests + 1,
                ollama_tokens := s1.ollama_tokens + tokens,
                cost_saved := s1.cost_saved +
                  ((tokens : ℚ) / 1000) * cheapest_paid_cost allProviders }
    else
      { s1 with paid_requests := s1.paid_requests + 1,
                paid_tokens := s1.paid_tokens + tokens,
                total_cost := s1.total_cost +
                  ((tokens : ℚ) / 1000) * p.cost_per_1k_tokens }
  let p1 := { p with usage_count := p.usage_count + 1,
                     tokens_used := p.tokens_used + tokens,
                     total_cost := if p.name == "ollama" then p.total_cost
                       else p.total_cost + ((tokens : ℚ) / 1000) * p.cost_per_1k_tokens }
  (s2, p1)

/-- Fold a sequence of successful calls, all served by the same provider,
through the stats tracker. -/
def run_usage_calls (allProviders : List Provider) (p : Provider)
    (stats : UsageStats) : List (String × String) → UsageStats
  | [] => stats
  | (msg, resp) :: rest =>
      run_usage_calls allProviders p
        (update_usage_stats allProviders stats p msg resp).1 rest

/-! ## Webhooks
`WebhookManager.trigger_webhook` / `_send_webhook` and the `register_webhook`
tool handler in kimi-k2-resilient-enhanced/server.py (lines 408-458, 751-760).
`json.dumps` and `hmac.new(..., hashlib.sha256).hexdigest()` are abstract
function parameters. -/

/-- The dict `{'event': ..., 'timestamp': ..., 'data': ...}` built by
`_send_webhook`; `data` is kept as its serialised form. -/
structure WebhookPayload where
  event : String
  timestamp : String
  dataJson : String
  deriving DecidableEq, Repr

/-- One row of the `webhooks` table. -/
structure WebhookReg where
  url : String
  event_type : String
  active : Bool := true
  secret_key : String
  retry_count : Nat := 3
  deriving DecidableEq, Repr

/-- The `register_webhook` tool handler:
`INSERT INTO webhooks (event_type, url, secret_key, active) VALUES (?, ?, ?, 1)`
with `arguments.get("secret", "")`. -/
def register_webhook (event_type url : String) (secret : Option String) : WebhookReg :=
  { url := url, event_type := event_type, active := true, secret_key := secret.getD "" }

/-- The HTTP POST assembled by one `_send_webhook` delivery attempt (every retry
re-sends the same body and headers). -/
structure WebhookRequest where
  url : String
  body : String
  headers : List (String × String)
  deriving DecidableEq, Repr

/-- `_send_webhook`: serialise the payload; `if secret:` (false for `None` and
for the empty string) attach `X-Webhook-Signature = HMAC-SHA256(secret, body)`
as a hex digest. `httpx` serialises `json=payload` with the same `json.dumps`. -/
def send_webhook_request (hmacSha256Hex : String → String → String)
    (jsonDumps : WebhookPayload → String) (url event_type timestamp dataJson : String)
    (secret : Option String) : WebhookRequest :=
  let payload : WebhookPayload := ⟨event_type, timestamp, dataJson⟩
  let body := jsonDumps payload
  let baseHeaders := [("Content-Type", "application/json")]
  let headers :=
    match secret with
    | some s => if s ≠ "" then baseHeaders ++ [("X-Webhook-Signature", hmacSha256Hex s body)]
                else baseHeaders
    | none => baseHeaders
  ⟨url, body, headers⟩

/-- `trigger_webhook`: select rows with matching event type and `active = 1`,
then `_send_webhook` each. -/
def trigger_webhook (hmacSha256Hex : String → String → String)
    (jsonDumps : WebhookPayload → String) (regs : List WebhookReg)
    (event_type timestamp dataJson : String) : List WebhookRequest :=
  (regs.filter (fun w => w.event_type == event_type && w.active)).map
    (fun w => send_webhook_request hmacSha256Hex jsonDumps w.url event_type timestamp
      dataJson (some w.secret_key))

/-! ## Ollama model-name resolution
`OllamaManager.is_model_available` and `OllamaManager.get_actual_model_name` in
converse-mcp-enhanced/src/ollama_manager.py (lines 81-182). The state is the
detected `available_models` list; the periodic refresh is I/O and out of scope. -/

/-- `needle` is a prefix of `hay` (character lists). -/
def listIsPre : List Char → List Char → Bool
  | [], _ => true
  | _ :: _, [] => false
  | a :: as, b :: bs => a == b && listIsPre as bs

/-- Python `needle in hay` substring test. -/
def listHasSub : List Char → List Char → Bool
  | [], needle => needle.isEmpty
  | h :: t, needle => listIsPre needle (h :: t) || listHasSub t needle

def strHasSub (hay needle : String) : Bool := listHasSub hay.data needle.data

def strStarts (s pre : String) : Bool := listIsPre pre.data s.data

/-- `str.lower()` (ASCII case folding, which covers every model name here). -/
def pyLower (s : String) : String := ⟨s.data.map Char.toLower⟩

/-- `str.strip()`. -/
def pyStrip (s : String) : String :=
  ⟨((s.data.dropWhile isPySpace).reverse.dropWhile isPySpace).reverse⟩

/-- The loop removing the known scheme markers `ollama/`, `ollama:`, `local/`,
`local:` from the front of the cleaned name, each at most once, in order. -/
def dropSchemeMarkers (s : String) : String :=
  ["ollama/", "ollama:", "local/", "local:"].foldl
    (fun acc mk => if strStarts acc mk then ⟨acc.data.drop mk.data.length⟩ else acc) s

/-- `clean_name = model_name.lower().strip()` plus marker removal. -/
def cleanModelName (s : String) : String := dropSchemeMarkers (pyStrip (pyLower s))

/-- `s.replace(c, '')` for a single-character pattern. -/
def removeCharStr (s : String) (c : Char) : String := ⟨s.data.filter (fun x => x != c)⟩

/-- `s.replace(a, b)` for single-character patterns. -/
def swapCharStr (s : String) (a b : Char) : String :=
  ⟨s.data.map (fun x => if x == a then b else x)⟩

/-- `clean_name.split(':')[0]`. -/
def baseOf (s : String) : String := ⟨s.data.takeWhile (fun c => c != ':')⟩

/-- `is_model_available`: direct match, `:latest` match, base-name match, then a
fuzzy pass over five punctuation variants tested by substring in both directions. -/
def is_model_available (available_models : List String) (model_name : String) : Bool :=
  if available_models.isEmpty then false
  else
    let clean := cleanModelName model_name
    if available_models.contains clean then true
    else if available_models.contains (clean ++ ":latest") then true
    else
      let base := baseOf clean
      if available_models.any (fun m => strStarts m (base ++ ":") || m == base) then true
      else
        let variations := [removeCharStr clean '.', removeCharStr clean '-',
                           removeCharStr clean '_', swapCharStr clean '.' '-',
                           swapCharStr clean '-' '.']
        variations.any (fun v =>
          available_models.contains v ||
          available_models.any (fun m => strHasSub m v || strHasSub v m))

/-- The fuzzy pass of `get_actual_model_name`: for each variant, return the
variant itself when it is installed, else the first installed model containing
it as a substring. -/
def findVariantMatch (models : List String) : List String → Option String
  | [] => none
  | v :: vs =>
      if models.contains v then some v
      else
        match models.find? (fun m => strHasSub m v) with
        | some m => some m
        | none => findVariantMatch models vs

/-- `get_actual_model_name`: the same direct/`:latest`/base-name cascade, but a
fuzzy pass over only three variants (no `.`↔`-` swaps) tested in one direction,
and a final both-direction partial match on the cleaned name itself. -/
def get_actual_model_name (available_models : List String) (requested_name : String) :
    Option String :=
  if available_models.isEmpty then none
  else
    let clean := cleanModelName requested_name
    if available_models.contains clean then some clean
    else if available_models.contains (clean ++ ":latest") then some (clean ++ ":latest")
    else
      let base := baseOf clean
      match available_models.find? (fun m => strStarts m (base ++ ":") || m == base) with
      | some m => some m
      | none =>
          match findVariantMatch available_models
            [removeCharStr clean '.', removeCharStr clean '-', removeCharStr clean '_'] with
          | some m => some m
          | none => available_models.find? (fun m => strHasSub m clean || strHasSub clean m)

/-! ## Concrete instances used to evaluate the theorems below -/

/-- 1 for a failure outcome, 0 for a success. -/
def outcomeFailNat (o : CallOutcome) : Nat := if isFailureOutcome o then 1 else 0

/-- A breaker that has tripped open, its last failure recorded at time 1. -/
def cbOpenEx : CircuitBreaker :=
  { state := .opened, last_failure_time := some 1, failure_count := 5 }

def jobEx1 : PJob :=
  { job_id := "1", content := "c", analysis_type := "a", status := "pending" }

def jobEx2 : PJob := { jobEx1 with job_id := "2" }

def jobExM1 : PJob := { jobEx1 with model_used := some "moonshot-v1-8k" }

def jobExM2 : PJob := { jobEx2 with model_used := some "moonshot-v1-8k" }

def ollamaProvEx : Provider :=
  { name := "ollama", priority := 1, enabled := true, is_free := true,
    status := .available }

def paidProvEx : Provider :=
  { name := "anthropic", priority := 10, enabled := true, api_key := some "k",
    cost_per_1k_tokens := 3 / 200, status := .available }

def mgrEx : APIManager :=
  { providers := [ollamaProvEx, paidProvEx], ollama_is_available := true }

/-- Call oracle where the paid remote fails and the local backend answers. -/
def callEx : Provider → Except String String :=
  fun p => if p.name == "anthropic" then .error "boom" else .ok "hi"

end MCPFed

namespace MCPFed

/-! ## Theorems -/

/-! ### Circuit breaker: C1 and C2 -/

/-- Single `call` step: the failure count grows by at most the number of
failures fed in, the threshold never changes, and the breaker can only be open
afterwards if it already was or the (possibly incremented) count reached the
threshold. -/
theorem call_step_bound (cb : CircuitBreaker) (now : ℚ) (o : CallOutcome) :
    (cb.call now o).breaker.failure_count ≤ cb.failure_count + outcomeFailNat o ∧
    ((cb.call now o).breaker.state = .opened →
      cb.state = .opened ∨
        cb.failure_threshold ≤ cb.failure_count + outcomeFailNat o) ∧
    (cb.call now o).breaker.failure_threshold = cb.failure_threshold := by
  rcases cb with ⟨th, tmo, fc, lf, st⟩
  cases o <;> cases st <;>
    simp [CircuitBreaker.call, CircuitBreaker.callBody, outcomeFailNat, isFailureOutcome] <;>
    split_ifs <;> simp_all <;> omega

theorem countFailures_cons (t : ℚ) (o : CallOutcome) (tr : List (ℚ × CallOutcome)) :
    countFailures ((t, o) :: tr) = outcomeFailNat o + countFailures tr := by
  cases o <;> simp [countFailures, outcomeFailNat, isFailureOutcome, List.filter_cons] <;> omega

/-- Trace-level bound obtained by chaining `call_step_bound`. -/
theorem runTrace_bound : ∀ (tr : List (ℚ × CallOutcome)) (cb : CircuitBreaker),
    (cb.runTrace tr).failure_count ≤ cb.failure_count + countFailures tr ∧
    ((cb.runTrace tr).state = .opened →
      cb.state = .opened ∨
        cb.failure_threshold ≤ cb.failure_count + countFailures tr) ∧
    (cb.runTrace tr).failure_threshold = cb.failure_threshold
  | [], cb => by
      simp only [CircuitBreaker.runTrace, countFailures, List.filter_nil, List.length_nil,
        Nat.add_zero]
      exact ⟨le_refl _, fun h => Or.inl h, trivial⟩
  | (t, o) :: rest, cb => by
      have hstep := call_step_bound cb t o
      have ih := runTrace_bound rest (cb.call t o).breaker
      rw [CircuitBreaker.runTrace, countFailures_cons]
      have h1 := hstep.1
      have h2 := hstep.2.2
      have h3 := ih.1
      have h4 := ih.2.2
      refine ⟨by omega, ?_, by omega⟩
      intro hop
      rcases ih.2.1 hop with h | h
      · rcases hstep.2.1 h with h5 | h5
        · exact Or.inl h5
        · exact Or.inr (by omega)
      · right
        omega

/-- C1, counterexample to the claim as stated: from a fresh default breaker
(threshold 5), one failure followed by a success leaves the failure count at
1 (the success does not reset it to 0), and the six-call trace
fail, fail, fail, fail, success, fail ends with the breaker open even though it
contains no run of 5 consecutive failures. -/
theorem circuit_breaker_consecutive_cex :
    (CircuitBreaker.runTrace {} [(1, .failure "e"), (2, .success "v")]).failure_count = 1 ∧
    (CircuitBreaker.runTrace {}
        [(1, .failure "e1"), (2, .failure "e2"), (3, .failure "e3"), (4, .failure "e4"),
         (5, .success "ok"), (6, .failure "e5")]).state = .opened := by
  decide

/-- C1 (amended): the breaker's counter counts total failures since the last
reset, not consecutive ones. In the closed state a success leaves the failure
count unchanged (it is reset only on a half-open success); a failure from the
closed state opens the breaker exactly when the incremented total reaches the
threshold; and a fresh breaker can never be open after a trace containing fewer
than `failure_threshold` failures, successes notwithstanding. -/
theorem circuit_breaker_counts_total_failures (cb : CircuitBreaker) (now : ℚ)
    (v e : String) (hclosed : cb.state = .closed) :
    (cb.call now (.success v)).breaker.failure_count = cb.failure_count ∧
    (cb.call now (.success v)).breaker.state = .closed ∧
    ((cb.call now (.failure e)).breaker.state = .opened ↔
      cb.failure_threshold ≤ cb.failure_count + 1) ∧
    (∀ tr : List (ℚ × CallOutcome), cb.failure_count = 0 →
      countFailures tr < cb.failure_threshold → (cb.runTrace tr).state ≠ .opened) := by
  refine ⟨?_, ?_, ?_, ?_⟩
  · rcases cb with ⟨th, tmo, fc, lf, st⟩
    subst hclosed
    simp [CircuitBreaker.call, CircuitBreaker.callBody]
  · rcases cb with ⟨th, tmo, fc, lf, st⟩
    subst hclosed
    simp [CircuitBreaker.call, CircuitBreaker.callBody]
  · rcases cb with ⟨th, tmo, fc, lf, st⟩
    subst hclosed
    simp [CircuitBreaker.call, CircuitBreaker.callBody]
    split_ifs with h
    · simpa using h
    · simpa using h
  · intro tr hfc hlt hop
    rcases (runTrace_bound tr cb).2.1 hop with h | h
    · rw [hclosed] at h
      cases h
    · omega

/-- Evaluation of `circuit_breaker_counts_total_failures` on the default
breaker in its initial closed state. -/
theorem circuit_breaker_counts_total_failures_witness :
    (({} : CircuitBreaker).call 1 (.success "v")).breaker.state = .closed ∧
    ((({} : CircuitBreaker).call 1 (.failure "e")).breaker.state = .opened ↔
      5 ≤ 0 + 1) :=
  ⟨(circuit_breaker_counts_total_failures {} 1 "v" "e" rfl).2.1,
   (circuit_breaker_counts_total_failures {} 1 "v" "e" rfl).2.2.1⟩

/-- C2: while the breaker is open with a recorded last failure at `t` (a real
wall-clock instant, hence nonzero) and less than `timeout` has elapsed, `call`
raises "Circuit breaker is open" without invoking `fn` and leaves the breaker
untouched; once more than `timeout` has elapsed, the next call does invoke
`fn` after moving to half-open, so a success closes the breaker and resets the
count, and the outcome of `fn` is what the caller sees. -/
theorem circuit_breaker_open_gate (cb : CircuitBreaker) (t now : ℚ) (o : CallOutcome)
    (hst : cb.state = .opened) (hlf : cb.last_failure_time = some t) (ht : t ≠ 0) :
    (now - t < cb.timeout →
      cb.call now o = ⟨.raised "Circuit breaker is open", cb, false⟩) ∧
    (cb.timeout < now - t →
      (cb.call now o).invoked = true ∧
      (∀ v, o = .success v →
        (cb.call now o).result = .ok v ∧
        (cb.call now o).breaker.state = .closed ∧
        (cb.call now o).breaker.failure_count = 0) ∧
      (∀ e, o = .failure e → (cb.call now o).result = .raised e)) := by
  have hexp : cooldownExpired cb now = decide (cb.timeout < now - t) := by
    simp [cooldownExpired, hlf, ht]
  constructor
  · intro hlt
    have hfalse : cooldownExpired cb now = false := by
      rw [hexp]
      simp
      linarith
    rcases cb with ⟨th, tmo, fc, lf, st⟩
    subst hst
    simp [CircuitBreaker.call, hfalse]
  · intro hgt
    have htrue : cooldownExpired cb now = true := by
      rw [hexp]
      simpa using hgt
    rcases cb with ⟨th, tmo, fc, lf, st⟩
    subst hst
    refine ⟨?_, ?_, ?_⟩
    · cases o <;> simp [CircuitBreaker.call, CircuitBreaker.callBody, htrue] <;> split_ifs <;> rfl
    · rintro v rfl
      simp [CircuitBreaker.call, CircuitBreaker.callBody, htrue]
    · rintro e rfl
      simp [CircuitBreaker.call, CircuitBreaker.callBody, htrue]
      split_ifs <;> simp

/-- Evaluation of `circuit_breaker_open_gate` on a tripped breaker: at time 30
(29s after the failure) the call is rejected unseen; at time 100 (99s after)
the wrapped function runs and its success closes the breaker. -/
theorem circuit_breaker_open_gate_witness :
    cbOpenEx.call 30 (.success "v") = ⟨.raised "Circuit breaker is open", cbOpenEx, false⟩ ∧
    (cbOpenEx.call 100 (.success "v")).invoked = true ∧
    (cbOpenEx.call 100 (.success "v")).breaker.state = .closed := by
  have h1 := (circuit_breaker_open_gate cbOpenEx 1 30 (.success "v") rfl rfl
    (by norm_num)).1 (by norm_num [cbOpenEx])
  have h2 := (circuit_breaker_open_gate cbOpenEx 1 100 (.success "v") rfl rfl
    (by norm_num)).2 (by norm_num [cbOpenEx])
  exact ⟨h1, h2.1, (h2.2.1 "v" rfl).2.1⟩

/-! ### Caches: C3 -/

theorem lookupAssoc_setAssoc {β : Type} (c : List (String × β)) (k : String) (v : β) :
    lookupAssoc (setAssoc c k v) k = some v := by
  simp [lookupAssoc, setAssoc, List.find?]

/-- C3: in both caches, a `get` of key `k` performed after `put(k, v, ttl)`
returns `v` while strictly less than the ttl has elapsed and misses once the
ttl has elapsed. In the ModelOptimizer cache a hit returns the cache unchanged;
in the database cache a hit bumps `hit_count` and `last_accessed` but leaves
`expires_at` exactly where the put wrote it (`put time + ttl_hours * 3600`). -/
theorem cache_get_after_put (sha : String → String)
    (c : List (String × RespEntry)) (db : List (String × DbEntry))
    (k v content atype modelStr r : String) (t0 t1 ttl th : ℚ) :
    ((t1 - t0 < ttl →
        get_cached_response (cache_response c k v t0 ttl) k t1 =
          (some v, cache_response c k v t0 ttl)) ∧
     (ttl ≤ t1 - t0 →
        (get_cached_response (cache_response c k v t0 ttl) k t1).1 = none)) ∧
    ((t1 - t0 < th * 3600 →
        (get_cached_result sha (cache_result sha db content atype modelStr r t0 th)
            content atype modelStr t1).1 = some r ∧
        lookupAssoc (get_cached_result sha (cache_result sha db content atype modelStr r t0 th)
            content atype modelStr t1).2 (cacheKey sha content atype modelStr) =
          some ⟨r, 1, t0 + th * 3600, t1⟩) ∧
     (th * 3600 ≤ t1 - t0 →
        (get_cached_result sha (cache_result sha db content atype modelStr r t0 th)
            content atype modelStr t1).1 = none)) := by
  have hset : lookupAssoc (cache_response c k v t0 ttl) k = some ⟨v, t0, ttl⟩ :=
    lookupAssoc_setAssoc c k ⟨v, t0, ttl⟩
  have hdb : lookupAssoc (cache_result sha db content atype modelStr r t0 th)
      (cacheKey sha content atype modelStr) = some ⟨r, 0, t0 + th * 3600, t0⟩ :=
    lookupAssoc_setAssoc db (cacheKey sha content atype modelStr) ⟨r, 0, t0 + th * 3600, t0⟩
  refine ⟨⟨?_, ?_⟩, ?_, ?_⟩
  · intro hlt
    rw [get_cached_response, hset]
    simp only [if_pos hlt]
  · intro hge
    rw [get_cached_response, hset]
    simp only [if_neg (not_lt.2 hge)]
  · intro hlt
    have hlt1 : t1 < t0 + th * 3600 := by linarith
    rw [get_cached_result, hdb]
    constructor
    · simp only [if_pos hlt1]
    · simp only [if_pos hlt1]
      exact lookupAssoc_setAssoc _ _ _
  · intro hge
    have hge1 : ¬ t1 < t0 + th * 3600 := by
      intro h
      linarith
    rw [get_cached_result, hdb]
    simp only [if_neg hge1]

/-- Evaluation of `cache_get_after_put` with a fake clock: put at 0 with ttl 10
(resp. 1 hour), hit at 1, miss at 5000. -/
theorem cache_get_after_put_witness :
    (get_cached_response (cache_response [] "k" "v" 0 10) "k" 1).1 = some "v" ∧
    (get_cached_result (fun s => s) (cache_result (fun s => s) [] "c" "a" "m" "r" 0 1)
        "c" "a" "m" 1).1 = some "r" ∧
    (get_cached_response (cache_response [] "k" "v" 0 10) "k" 5000).1 = none ∧
    (get_cached_result (fun s => s) (cache_result (fun s => s) [] "c" "a" "m" "r" 0 1)
        "c" "a" "m" 5000).1 = none := by
  have h1 := cache_get_after_put (fun s => s) [] [] "k" "v" "c" "a" "m" "r" 0 1 10 1
  have h2 := cache_get_after_put (fun s => s) [] [] "k" "v" "c" "a" "m" "r" 0 5000 10 1
  refine ⟨?_, ?_, ?_, ?_⟩
  · rw [(h1.1.1 (by norm_num))]
  · exact (h1.2.1 (by norm_num)).1
  · exact h2.1.2 (by norm_num)
  · exact h2.2.2 (by norm_num)

/-! ### Batch pipeline cache idempotence: C4 -/

/-- C4, counterexample to the claim as stated: two jobs with identical
`(content, analysis_type, model_used)` — here `model_used = None`, the
dataclass default — processed back to back against an empty cache both invoke
the API client: the lookup key uses `model_used or "moonshot-v1-32k"` and
misses, and the first job's successful result is never cached because
`cache_result(..., None, ...)` violates the `NOT NULL` `model_used` column
(the IntegrityError even flips the job to failed), so the second job misses
and invokes the API again. -/
theorem batch_idempotence_cex :
    (process_single_job (fun s => s) (fun _ => .ok "r") [] jobEx1 0).2.2 = true ∧
    (process_single_job (fun s => s) (fun _ => .ok "r")
        (process_single_job (fun s => s) (fun _ => .ok "r") [] jobEx1 0).2.1
        jobEx2 1).2.2 = true := by
  decide

/-- C4 (amended): the pipeline invokes the API at most once for two jobs with
identical `(content, analysis_type, model_used)` within the 24h cache ttl,
provided `model_used` is an actual non-empty model name and the first API
result is a non-empty string — then the lookup key and the storage key
coincide, the first success populates the cache and the second job is served
the cached value without an API call. (With `model_used` absent the caching
insert fails on the NOT NULL column, with `model_used` empty the keys differ,
and an empty-string cached result fails the `if cached:` truthiness test; in
each of those cases the API can be invoked twice, as `batch_idempotence_cex`
shows for the first.) -/
theorem batch_cache_idempotent_named_model (sha : String → String)
    (api : PJob → Except String String) (db : List (String × DbEntry))
    (j1 j2 : PJob) (t1 t2 : ℚ) (m r : String)
    (hm1 : j1.model_used = some m) (hm2 : j2.model_used = some m) (hm : m ≠ "")
    (hc : j2.content = j1.content) (ha : j2.analysis_type = j1.analysis_type)
    (hok : api j1 = .ok r) (hr : r ≠ "") (ht : t2 - t1 < 24 * 3600) :
    ¬((process_single_job sha api db j1 t1).2.2 = true ∧
      (process_single_job sha api (process_single_job sha api db j1 t1).2.1 j2 t2).2.2 = true) ∧
    ((process_single_job sha api db j1 t1).2.2 = true →
      (process_single_job sha api (process_single_job sha api db j1 t1).2.1 j2 t2).2.2 = false ∧
      (process_single_job sha api (process_single_job sha api db j1 t1).2.1 j2 t2).1.result
        = some r) := by
  have hmod2 : pyOrDefaultModel j2.model_used = m := by
    rw [hm2]
    simp [pyOrDefaultModel, hm]
  have hrb : (r == "") = false := by simp [hr]
  -- a first-job miss calls the API and stores `r` under the shared key
  have hmiss : ∀ db1 : List (String × DbEntry),
      processJobMiss sha api db1 j1 t1 =
        ({ j1 with result := some r, status := "completed", completed_at := some t1 },
         cache_result sha db1 j1.content j1.analysis_type m r t1 24, true) := by
    intro db1
    rw [processJobMiss, hok, hm1]
  -- against any cache produced that way, the second job hits (r is truthy)
  have hsecond : ∀ db1 : List (String × DbEntry),
      (process_single_job sha api
          (cache_result sha db1 j1.content j1.analysis_type m r t1 24) j2 t2).2.2 = false ∧
      (process_single_job sha api
          (cache_result sha db1 j1.content j1.analysis_type m r t1 24) j2 t2).1.result
        = some r := by
    intro db1
    have hlook : lookupAssoc (cache_result sha db1 j1.content j1.analysis_type m r t1 24)
        (cacheKey sha j2.content j2.analysis_type (pyOrDefaultModel j2.model_used)) =
        some ⟨r, 0, t1 + 24 * 3600, t1⟩ := by
      rw [hmod2, hc, ha, cache_result]
      exact lookupAssoc_setAssoc _ _ _
    have hsndv : (get_cached_result sha
        (cache_result sha db1 j1.content j1.analysis_type m r t1 24)
        j2.content j2.analysis_type (pyOrDefaultModel j2.model_used) t2).1 = some r := by
      rw [get_cached_result, hlook]
      simp only [if_pos (show t2 < t1 + 24 * 3600 by linarith)]
    refine ⟨?_, ?_⟩ <;> rw [process_single_job, hsndv] <;> simp [hrb]
  -- the whole claim follows whenever the first job takes the miss branch
  have hfromMiss :
      process_single_job sha api db j1 t1 =
        processJobMiss sha api (get_cached_result sha db j1.content j1.analysis_type
          (pyOrDefaultModel j1.model_used) t1).2 j1 t1 →
      ¬((process_single_job sha api db j1 t1).2.2 = true ∧
        (process_single_job sha api (process_single_job sha api db j1 t1).2.1 j2 t2).2.2
          = true) ∧
      ((process_single_job sha api db j1 t1).2.2 = true →
        (process_single_job sha api (process_single_job sha api db j1 t1).2.1 j2 t2).2.2
          = false ∧
        (process_single_job sha api (process_single_job sha api db j1 t1).2.1 j2 t2).1.result
          = some r) := by
    intro hstep
    have h12 : (process_single_job sha api db j1 t1).2.1 =
        cache_result sha (get_cached_result sha db j1.content j1.analysis_type
          (pyOrDefaultModel j1.model_used) t1).2 j1.content j1.analysis_type m r t1 24 := by
      rw [hstep, hmiss]
    refine ⟨?_, ?_⟩
    · rintro ⟨-, h2⟩
      rw [h12, (hsecond _).1] at h2
      cases h2
    · rintro -
      rw [h12]
      exact hsecond _
  rcases hg : (get_cached_result sha db j1.content j1.analysis_type
      (pyOrDefaultModel j1.model_used) t1).1 with _ | v
  · exact hfromMiss (by rw [process_single_job, hg])
  · by_cases hv : v = ""
    · subst hv
      exact hfromMiss (by rw [process_single_job, hg]; simp)
    · -- genuine cache hit: the first job never invokes the API
      have hvb : (v == "") = false := by simp [hv]
      have h1f : (process_single_job sha api db j1 t1).2.2 = false := by
        rw [process_single_job, hg]
        simp [hvb]
      refine ⟨?_, ?_⟩
      · rintro ⟨h1, -⟩
        rw [h1f] at h1
        cases h1
      · intro h1
        rw [h1f] at h1
        cases h1

/-- Evaluation of `batch_cache_idempotent_named_model`: with an explicit model
name and a non-empty API result the second identical job is answered from the
cache. -/
theorem batch_cache_idempotent_named_model_witness :
    (process_single_job (fun s => s) (fun _ => .ok "r")
        (process_single_job (fun s => s) (fun _ => .ok "r") [] jobExM1 0).2.1
        jobExM2 1).2.2 = false ∧
    (process_single_job (fun s => s) (fun _ => .ok "r")
        (process_single_job (fun s => s) (fun _ => .ok "r") [] jobExM1 0).2.1
        jobExM2 1).1.result = some "r" :=
  (batch_cache_idempotent_named_model (fun s => s) (fun _ => .ok "r") []
    jobExM1 jobExM2 0 1 "moonshot-v1-8k" "r" rfl rfl (by decide) rfl rfl rfl
    (by decide) (by norm_num)).2 (by decide)

/-! ### Batch status and counts: C5 -/

theorem processJobMiss_terminal (sha256hex : String → String)
    (api : PJob → Except String String) (db : List (String × DbEntry))
    (j : PJob) (now : ℚ) :
    (processJobMiss sha256hex api db j now).1.status = "completed" ∨
    (processJobMiss sha256hex api db j now).1.status = "failed" := by
  rw [processJobMiss]
  rcases api j with e | r
  · simp
  · rcases j.model_used with _ | mu <;> simp

/-- `_process_single_job` always hands back a terminal job: completed on a
truthy cache hit or cacheable API success, failed on an API exception or on
the NULL-`model_used` caching error. -/
theorem process_single_job_terminal (sha : String → String)
    (api : PJob → Except String String) (db : List (String × DbEntry))
    (j : PJob) (now : ℚ) :
    (process_single_job sha api db j now).1.status = "completed" ∨
    (process_single_job sha api db j now).1.status = "failed" := by
  rcases hg : (get_cached_result sha db j.content j.analysis_type
      (pyOrDefaultModel j.model_used) now).1 with _ | v
  · have hstep : process_single_job sha api db j now =
        processJobMiss sha api (get_cached_result sha db j.content j.analysis_type
          (pyOrDefaultModel j.model_used) now).2 j now := by
      rw [process_single_job, hg]
    rw [hstep]
    exact processJobMiss_terminal sha api _ j now
  · by_cases hv : v = ""
    · subst hv
      have hstep : process_single_job sha api db j now =
          processJobMiss sha api (get_cached_result sha db j.content j.analysis_type
            (pyOrDefaultModel j.model_used) now).2 j now := by
        rw [process_single_job, hg]
        simp
      rw [hstep]
      exact processJobMiss_terminal sha api _ j now
    · have hvb : (v == "") = false := by simp [hv]
      left
      rw [process_single_job, hg]
      simp [hvb]

theorem process_jobs_counts (sha : String → String) (api : PJob → Except String String)
    (now : ℚ) : ∀ (jobs : List PJob) (db : List (String × DbEntry)),
    ((process_jobs sha api now db jobs).1.filter (fun j => j.status == "completed")).length +
    ((process_jobs sha api now db jobs).1.filter (fun j => j.status == "failed")).length
      = jobs.length
  | [], db => by simp [process_jobs]
  | j :: rest, db => by
      rw [process_jobs]
      have ih := process_jobs_counts sha api now rest
        (process_single_job sha api db j now).2.1
      rcases process_single_job_terminal sha api db j now with h | h <;>
        simp [List.filter_cons, h] <;> omega

/-- C5: once `process_batch` returns, `completed_count + failed_count` equals
the number of jobs in the batch, the batch status is "completed" exactly when
no job failed and "partial" otherwise; and for any prefix of the batch (the
jobs processed "so far"), completed + failed is at most the batch size. -/
theorem batch_terminal_counts (sha : String → String) (api : PJob → Except String String)
    (db : List (String × DbEntry)) (now : ℚ) (jobs : List PJob) :
    ((process_batch sha api db now jobs).1.completed_count +
      (process_batch sha api db now jobs).1.failed_count = jobs.length) ∧
    ((process_batch sha api db now jobs).1.status = "completed" ↔
      (process_batch sha api db now jobs).1.failed_count = 0) ∧
    ((process_batch sha api db now jobs).1.failed_count ≠ 0 →
      (process_batch sha api db now jobs).1.status = "partial") ∧
    (∀ k, (process_batch sha api db now (jobs.take k)).1.completed_count +
          (process_batch sha api db now (jobs.take k)).1.failed_count ≤ jobs.length) := by
  refine ⟨process_jobs_counts sha api now jobs db, ?_, ?_, ?_⟩
  · rw [process_batch]
    by_cases h : ((process_jobs sha api now db jobs).1.filter
        (fun j => j.status == "failed")).length = 0 <;> simp [h]
  · intro h
    rw [process_batch] at h ⊢
    simp only at h ⊢
    rw [if_neg h]
  · intro k
    have h := process_jobs_counts sha api now (jobs.take k) db
    simp only [process_batch]
    rw [h, List.length_take]
    omega

/-- Evaluation of `batch_terminal_counts` on a two-job batch where the API
fails: counts sum to 2 and the status is "partial". -/
theorem batch_terminal_counts_witness :
    ((process_batch (fun s => s) (fun _ => .error "x") [] 0 [jobEx1, jobEx2]).1.completed_count +
      (process_batch (fun s => s) (fun _ => .error "x") [] 0 [jobEx1, jobEx2]).1.failed_count = 2) ∧
    (process_batch (fun s => s) (fun _ => .error "x") [] 0 [jobEx1, jobEx2]).1.status = "partial" :=
  ⟨(batch_terminal_counts (fun s => s) (fun _ => .error "x") [] 0 [jobEx1, jobEx2]).1,
   (batch_terminal_counts (fun s => s) (fun _ => .error "x") [] 0 [jobEx1, jobEx2]).2.2.1
     (by decide)⟩

/-! ### Auto-routing: C6 -/

/-- C6: whenever no specific model is requested (the `not model or model ==
"auto"` branch), the Ollama provider is in the registry, the Ollama manager
reports it available and the provider is enabled, the candidate list built by
`send_message` starts with the Ollama provider (its status forced to
AVAILABLE), so Ollama is the first provider attempted. -/
theorem auto_route_ollama_first (m : APIManager) (olP : Provider)
    (hfind : findProvider m "ollama" = some olP)
    (havail : m.ollama_is_available = true) (hen : olP.enabled = true) :
    (build_auto_candidates m).head? = some { olP with status := .available } ∧
    ∀ p : Provider, (build_auto_candidates m).head? = some p → p.name = "ollama" := by
  have hname : olP.name = "ollama" := by
    have hfind2 : m.providers.find? (fun q => q.name == "ollama") = some olP := by
      simpa [findProvider] using hfind
    have h := List.find?_some hfind2
    simpa using h
  have hbuild : build_auto_candidates m =
      { olP with status := .available } ::
        (get_available_providers (setProviderStatus m "ollama" .available)).filter
          (fun p => p.name != "ollama") := by
    simp [build_auto_candidates, hfind, havail, hen]
  rw [hbuild]
  refine ⟨rfl, ?_⟩
  rintro p hp
  injection hp with h
  rw [← h, hname]

/-- Evaluation of `auto_route_ollama_first` on a registry holding Ollama and a
paid provider. -/
theorem auto_route_ollama_first_witness :
    (build_auto_candidates mgrEx).head? = some { ollamaProvEx with status := .available } :=
  (auto_route_ollama_first mgrEx ollamaProvEx (by decide) rfl rfl).1

/-! ### send_message outcomes: C7 -/

theorem send_loop_success_src (allP : List Provider)
    (call : Provider → Except String String) (now : ℚ) :
    ∀ (l : List Provider) (errs : List String) (r n : String),
    send_loop allP call now l errs = .success r n →
    ∃ p, p ∈ l ∧ p.name = n ∧ call p = .ok r
  | [], errs, r, n, h => by
      rw [send_loop] at h
      cases h
  | p :: rest, errs, r, n, h => by
      rw [send_loop] at h
      by_cases hs : skipRateLimited now p
      · rw [if_pos hs] at h
        obtain ⟨q, hq, h2⟩ := send_loop_success_src allP call now rest errs r n h
        exact ⟨q, List.mem_cons_of_mem _ hq, h2⟩
      · rw [if_neg hs] at h
        split at h
        next resp heq =>
          injection h with h1 h2
          exact ⟨p, List.mem_cons_self _ _, h2, by rw [heq, h1]⟩
        next e heq =>
          by_cases hf : p.fallback_on_error
          · rw [if_pos hf] at h
            obtain ⟨q, hq, h2⟩ := send_loop_success_src allP call now rest _ r n h
            exact ⟨q, List.mem_cons_of_mem _ hq, h2⟩
          · rw [if_neg hf] at h
            cases h

theorem send_loop_failed_src (allP : List Provider)
    (call : Provider → Except String String) (now : ℚ) :
    ∀ (l : List Provider) (errs : List String) (msg : String),
    send_loop allP call now l errs = .failed msg →
    msg = aggregated_error allP (errs ++ attempted_errors call now l)
  | [], errs, msg, h => by
      rw [send_loop] at h
      injection h with h1
      rw [← h1, attempted_errors]
      simp
  | p :: rest, errs, msg, h => by
      rw [send_loop] at h
      by_cases hs : skipRateLimited now p
      · rw [if_pos hs] at h
        rw [attempted_errors, if_pos hs]
        exact send_loop_failed_src allP call now rest errs msg h
      · rw [if_neg hs] at h
        split at h
        next resp heq => cases h
        next e heq =>
          rw [attempted_errors, if_neg hs]
          by_cases hf : p.fallback_on_error
          · rw [if_pos hf] at h
            have ih := send_loop_failed_src allP call now rest _ msg h
            rw [ih, heq]
            simp [hf]
          · rw [if_neg hf] at h
            injection h with h1
            rw [← h1, heq]
            simp [hf]

/-- C7: `send_message` (from the point the candidate list is fixed) either
returns a (response, provider_name) pair that some listed provider's call
actually produced — never a synthetic response —, or fails: with the specific
"no backend configured" setup-guidance message when the candidate list is
empty, and otherwise with the aggregated message listing, in order, the
"name: error" line of every attempted (non-skipped, up to a non-fallback
break) provider. -/
theorem send_message_outcomes (m : APIManager)
    (call : Provider → Except String String) (now : ℚ) (candidates : List Provider) :
    (candidates = [] →
      send_message_from m call now candidates = .failed configuration_error_msg) ∧
    (∀ r n, send_message_from m call now candidates = .success r n →
      ∃ p, p ∈ candidates ∧ p.name = n ∧ call p = .ok r) ∧
    (∀ msg, candidates ≠ [] →
      send_message_from m call now candidates = .failed msg →
      msg = aggregated_error m.providers (attempted_errors call now candidates)) := by
  refine ⟨?_, ?_, ?_⟩
  · rintro rfl
    rw [send_message_from]
    simp
  · intro r n h
    rw [send_message_from] at h
    by_cases hne : candidates.isEmpty
    · rw [if_pos hne] at h
      cases h
    · rw [if_neg hne] at h
      exact send_loop_success_src m.providers call now candidates [] r n h
  · intro msg hne h
    rw [send_message_from, if_neg (by simpa using hne)] at h
    simpa using send_loop_failed_src m.providers call now candidates [] msg h

/-- Evaluation of `send_message_outcomes`: the paid provider fails, the loop
falls through to Ollama, and the returned pair is traceable to Ollama's call. -/
theorem send_message_outcomes_witness :
    ∃ p, p ∈ [paidProvEx, ollamaProvEx] ∧ p.name = "ollama" ∧ callEx p = .ok "hi" :=
  (send_message_outcomes mgrEx callEx 0 [paidProvEx, ollamaProvEx]).2.1 "hi" "ollama"
    (by decide)

/-! ### Usage statistics and cost savings: C8 -/

theorem foldl_min_pos (c : ℚ) (cs : List ℚ) (hc : 0 < c) (hcs : ∀ x ∈ cs, 0 < x) :
    0 < cs.foldl min c := by
  induction cs generalizing c with
  | nil => exact hc
  | cons x xs ih =>
      rw [List.foldl_cons]
      exact ih _ (lt_min hc (hcs x (List.mem_cons_self _ _)))
        (fun y hy => hcs y (List.mem_cons_of_mem _ hy))

/-- The savings baseline is always a positive price: the minimum runs over the
strictly positive configured prices and falls back to the default 0.001. -/
theorem cheapest_paid_cost_pos (providers : List Provider) :
    0 < cheapest_paid_cost providers := by
  rw [cheapest_paid_cost]
  rcases hc : (providers.filter
      (fun p => decide (0 < p.cost_per_1k_tokens) && p.status == PStatus.available)).map
      (fun p => p.cost_per_1k_tokens) with _ | ⟨c, cs⟩
  · rw [hc]
    norm_num
  · rw [hc]
    have hall : ∀ x ∈ c :: cs, (0 : ℚ) < x := by
      intro x hx
      rw [← hc] at hx
      obtain ⟨p, hp, rfl⟩ := List.mem_map.1 hx
      have := List.mem_filter.1 hp
      have h2 := this.2
      simp only [Bool.and_eq_true, decide_eq_true_eq] at h2
      exact h2.1
    exact foldl_min_pos c cs (hall c (List.mem_cons_self _ _))
      (fun y hy => hall y (List.mem_cons_of_mem _ hy))

theorem update_usage_stats_ollama (allP : List Provider) (stats : UsageStats)
    (p : Provider) (msg resp : String) (hname : p.name = "ollama") :
    (update_usage_stats allP stats p msg resp).1.total_cost = stats.total_cost ∧
    (update_usage_stats allP stats p msg resp).1.paid_requests = stats.paid_requests ∧
    (update_usage_stats allP stats p msg resp).1.cost_saved = stats.cost_saved +
      (((pyWordCount msg + pyWordCount resp : Nat) : ℚ) / 1000) *
        cheapest_paid_cost allP := by
  simp [update_usage_stats, hname]

theorem run_usage_calls_ollama (allP : List Provider) (ol : Provider)
    (hname : ol.name = "ollama") : ∀ (calls : List (String × String)) (stats : UsageStats),
    (run_usage_calls allP ol stats calls).total_cost = stats.total_cost ∧
    (run_usage_calls allP ol stats calls).paid_requests = stats.paid_requests ∧
    stats.cost_saved ≤ (run_usage_calls allP ol stats calls).cost_saved ∧
    ((∃ c ∈ calls, 0 < pyWordCount c.1 + pyWordCount c.2) →
      stats.cost_saved < (run_usage_calls allP ol stats calls).cost_saved)
  | [], stats => by
      refine ⟨rfl, rfl, le_refl _, ?_⟩
      rintro ⟨c, hc, -⟩
      cases hc
  | (msg, resp) :: rest, stats => by
      have hstep := update_usage_stats_ollama allP stats ol msg resp hname
      have ih := run_usage_calls_ollama allP ol hname rest
        (update_usage_stats allP stats ol msg resp).1
      have hnonneg : (0 : ℚ) ≤ (((pyWordCount msg + pyWordCount resp : Nat) : ℚ) / 1000) *
          cheapest_paid_cost allP := by
        apply mul_nonneg
        · positivity
        · exact le_of_lt (cheapest_paid_cost_pos allP)
      rw [run_usage_calls]
      refine ⟨by rw [ih.1, hstep.1], by rw [ih.2.1, hstep.2.1], ?_, ?_⟩
      · calc stats.cost_saved
            ≤ (update_usage_stats allP stats ol msg resp).1.cost_saved := by
              rw [hstep.2.2]; linarith
          _ ≤ _ := ih.2.2.1
      · rintro ⟨c, hc, htok⟩
        rcases List.mem_cons.1 hc with rfl | hmem
        · have hpos : (0 : ℚ) < (((pyWordCount msg + pyWordCount resp : Nat) : ℚ) / 1000) *
              cheapest_paid_cost allP := by
            apply mul_pos
            · have : (0 : ℚ) < ((pyWordCount msg + pyWordCount resp : Nat) : ℚ) := by
                exact_mod_cast htok
              positivity
            · exact cheapest_paid_cost_pos allP
          calc stats.cost_saved
              < (update_usage_stats allP stats ol msg resp).1.cost_saved := by
                rw [hstep.2.2]; linarith
            _ ≤ _ := ih.2.2.1
        · calc stats.cost_saved
              ≤ (update_usage_stats allP stats ol msg resp).1.cost_saved := by
                rw [hstep.2.2]; linarith
            _ < _ := ih.2.2.2 ⟨c, hmem, htok⟩

/-- C8, counterexample to the claim as stated: one successful Ollama call whose
message and response are both empty has a token estimate of 0, so it adds
nothing to `cost_saved`; after M = 1 such free calls `total_cost = 0` holds but
`cost_saved > 0` does not. -/
theorem free_calls_cost_saved_cex :
    (run_usage_calls [ollamaProvEx, paidProvEx] ollamaProvEx {} [("", "")]).total_cost = 0 ∧
    ¬(0 < (run_usage_calls [ollamaProvEx, paidProvEx] ollamaProvEx {} [("", "")]).cost_saved) := by
  have hstep := update_usage_stats_ollama [ollamaProvEx, paidProvEx] {} ollamaProvEx "" "" rfl
  have h0 : pyWordCount "" = 0 := rfl
  simp only [run_usage_calls]
  refine ⟨?_, ?_⟩
  · rw [hstep.1]
  · rw [hstep.2.2, h0]
    norm_num

/-- C8 (amended): every successful Ollama call adds
`(estimated tokens / 1000) × cheapest_paid_cost` (the cheapest available paid
price, defaulting to 0.001 when no paid provider qualifies) to `cost_saved` and
nothing to `total_cost`; hence after M ≥ 1 successful free calls and no paid
calls, `total_cost = 0`, `paid_requests = 0`, and `cost_saved > 0` provided at
least one of the calls has a nonzero token estimate (a nonempty message or
response) — an all-empty call contributes 0, as `free_calls_cost_saved_cex`
shows. -/
theorem free_calls_cost_saved (allP : List Provider) (ol : Provider)
    (stats : UsageStats) (msg resp : String) (calls : List (String × String))
    (hname : ol.name = "ollama")
    (htok : ∃ c ∈ calls, 0 < pyWordCount c.1 + pyWordCount c.2) :
    ((update_usage_stats allP stats ol msg resp).1.total_cost = stats.total_cost ∧
     (update_usage_stats allP stats ol msg resp).1.cost_saved = stats.cost_saved +
       (((pyWordCount msg + pyWordCount resp : Nat) : ℚ) / 1000) *
         cheapest_paid_cost allP) ∧
    ((run_usage_calls allP ol {} calls).total_cost = 0 ∧
     (run_usage_calls allP ol {} calls).paid_requests = 0 ∧
     0 < (run_usage_calls allP ol {} calls).cost_saved) := by
  have hstep := update_usage_stats_ollama allP stats ol msg resp hname
  have hrun := run_usage_calls_ollama allP ol hname calls {}
  exact ⟨⟨hstep.1, hstep.2.2⟩, hrun.1, hrun.2.1, hrun.2.2.2 htok⟩

/-- Evaluation of `free_calls_cost_saved` on two free calls, the first with a
real prompt: the tracker reports zero spend and positive savings. -/
theorem free_calls_cost_saved_witness :
    (run_usage_calls [ollamaProvEx, paidProvEx] ollamaProvEx {}
        [("hi there", "ok"), ("", "")]).total_cost = 0 ∧
    (run_usage_calls [ollamaProvEx, paidProvEx] ollamaProvEx {}
        [("hi there", "ok"), ("", "")]).paid_requests = 0 ∧
    0 < (run_usage_calls [ollamaProvEx, paidProvEx] ollamaProvEx {}
        [("hi there", "ok"), ("", "")]).cost_saved :=
  (free_calls_cost_saved [ollamaProvEx, paidProvEx] ollamaProvEx {} "" ""
    [("hi there", "ok"), ("", "")] rfl (by decide)).2

/-! ### Webhook signatures: C9 -/

/-- C9: a webhook registered with a non-empty secret `s` produces, for every
triggered event, a POST whose `X-Webhook-Signature` header is the hex
HMAC-SHA256 digest under key `s` of exactly the JSON-serialised payload sent as
the body; a webhook registered without a secret (stored as the empty string)
gets no signature header. -/
theorem webhook_signature_header (hmacSha256Hex : String → String → String)
    (jsonDumps : WebhookPayload → String) (ev url ts dataJson s : String) (hs : s ≠ "") :
    ((send_webhook_request hmacSha256Hex jsonDumps url ev ts dataJson
        (some (register_webhook ev url (some s)).secret_key)).headers =
      [("Content-Type", "application/json"),
       ("X-Webhook-Signature",
         hmacSha256Hex s (send_webhook_request hmacSha256Hex jsonDumps url ev ts dataJson
           (some (register_webhook ev url (some s)).secret_key)).body)] ∧
     (send_webhook_request hmacSha256Hex jsonDumps url ev ts dataJson
        (some (register_webhook ev url (some s)).secret_key)).body =
       jsonDumps ⟨ev, ts, dataJson⟩) ∧
    trigger_webhook hmacSha256Hex jsonDumps [register_webhook ev url (some s)] ev ts dataJson =
      [send_webhook_request hmacSha256Hex jsonDumps url ev ts dataJson (some s)] ∧
    (send_webhook_request hmacSha256Hex jsonDumps url ev ts dataJson
        (some (register_webhook ev url none).secret_key)).headers =
      [("Content-Type", "application/json")] := by
  refine ⟨⟨?_, ?_⟩, ?_, ?_⟩
  · simp [send_webhook_request, register_webhook, hs]
  · simp [send_webhook_request, register_webhook]
  · simp [trigger_webhook, register_webhook]
  · simp [send_webhook_request, register_webhook]

/-- Evaluation of `webhook_signature_header` with concrete stand-ins for the
HMAC and JSON-serialisation functions. -/
theorem webhook_signature_header_witness :
    (send_webhook_request (fun k mtext => k ++ "|" ++ mtext)
        (fun p => p.event ++ p.timestamp ++ p.dataJson) "http://h" "done" "t0" "d0"
        (some (register_webhook "done" "http://h" (some "sec")).secret_key)).headers =
      [("Content-Type", "application/json"),
       ("X-Webhook-Signature",
         (fun (k mtext : String) => k ++ "|" ++ mtext) "sec"
           (send_webhook_request (fun k mtext => k ++ "|" ++ mtext)
             (fun p => p.event ++ p.timestamp ++ p.dataJson) "http://h" "done" "t0" "d0"
             (some (register_webhook "done" "http://h" (some "sec")).secret_key)).body)] ∧
    (send_webhook_request (fun k mtext => k ++ "|" ++ mtext)
        (fun p => p.event ++ p.timestamp ++ p.dataJson) "http://h" "done" "t0" "d0"
        (some (register_webhook "done" "http://h" none).secret_key)).headers =
      [("Content-Type", "application/json")] :=
  ⟨(webhook_signature_header (fun k mtext => k ++ "|" ++ mtext)
      (fun p => p.event ++ p.timestamp ++ p.dataJson) "done" "http://h" "t0" "d0" "sec"
      (by decide)).1.1,
   (webhook_signature_header (fun k mtext => k ++ "|" ++ mtext)
      (fun p => p.event ++ p.timestamp ++ p.dataJson) "done" "http://h" "t0" "d0" "sec"
      (by decide)).2.2⟩

/-! ### Model-name resolution agreement: C10 -/

/-- C10, counterexample to the claim as stated: with detected model list
`["a.b"]` and requested name `"a-b"`, `is_model_available` answers `True` (its
fuzzy pass tries the `-`→`.` variant `"a.b"`), while `get_actual_model_name` —
whose fuzzy pass has no `.`↔`-` swap variants — returns `None`. -/
theorem model_resolution_agreement_cex :
    is_model_available ["a.b"] "a-b" = true ∧
    get_actual_model_name ["a.b"] "a-b" = none := by
  decide

theorem any_iff_find_isSome (f : String → Bool) :
    ∀ l : List String, l.any f = true ↔ (l.find? f).isSome = true
  | [] => by simp
  | x :: xs => by
      by_cases h : f x <;>
        simp [List.any_cons, List.find?, h, any_iff_find_isSome f xs]

/-- C10 (amended): the two resolution entry points agree on the empty model
list (both negative) and on the non-fuzzy matching cascade — whenever the
cleaned requested name matches an installed model exactly, with an appended
`:latest` tag, or by base name, `is_model_available` returns `True` and
`get_actual_model_name` returns a model name. Full equivalence fails because
the two fuzzy fallbacks differ (`model_resolution_agreement_cex`). -/
theorem model_resolution_agreement_nonfuzzy (models : List String) (nm : String) :
    (models = [] →
      is_model_available models nm = false ∧ get_actual_model_name models nm = none) ∧
    (models.contains (cleanModelName nm) = true →
      is_model_available models nm = true ∧ (get_actual_model_name models nm).isSome = true) ∧
    (models.contains (cleanModelName nm ++ ":latest") = true →
      is_model_available models nm = true ∧ (get_actual_model_name models nm).isSome = true) ∧
    (models.any (fun mdl => strStarts mdl (baseOf (cleanModelName nm) ++ ":") ||
        mdl == baseOf (cleanModelName nm)) = true →
      is_model_available models nm = true ∧ (get_actual_model_name models nm).isSome = true) := by
  refine ⟨?_, ?_, ?_, ?_⟩
  · rintro rfl
    exact ⟨rfl, rfl⟩
  · intro hdir
    have hne : models.isEmpty = false := by
      cases models
      · cases hdir
      · rfl
    have hdirm : cleanModelName nm ∈ models := by simpa using hdir
    constructor
    · simp [is_model_available, hne]
      exact Or.inl hdirm
    · simp [get_actual_model_name, hne, hdirm]
  · intro hlat
    have hne : models.isEmpty = false := by
      cases models
      · cases hlat
      · rfl
    have hlatm : cleanModelName nm ++ ":latest" ∈ models := by simpa using hlat
    by_cases hdirm : cleanModelName nm ∈ models
    · constructor
      · simp [is_model_available, hne]
        exact Or.inl hdirm
      · simp [get_actual_model_name, hne, hdirm]
    · constructor
      · simp [is_model_available, hne]
        exact Or.inr (Or.inl hlatm)
      · simp [get_actual_model_name, hne, hdirm, hlatm]
  · intro hbase
    have hne : models.isEmpty = false := by
      cases models
      · cases hbase
      · rfl
    have hbasem : ∃ x ∈ models,
        strStarts x (baseOf (cleanModelName nm) ++ ":") = true ∨
          x = baseOf (cleanModelName nm) := by
      simpa using hbase
    by_cases hdirm : cleanModelName nm ∈ models
    · constructor
      · simp [is_model_available, hne]
        exact Or.inl hdirm
      · simp [get_actual_model_name, hne, hdirm]
    · by_cases hlatm : cleanModelName nm ++ ":latest" ∈ models
      · constructor
        · simp [is_model_available, hne]
          exact Or.inr (Or.inl hlatm)
        · simp [get_actual_model_name, hne, hdirm, hlatm]
      · have hfind : (models.find? (fun mdl => strStarts mdl (baseOf (cleanModelName nm) ++ ":") ||
            mdl == baseOf (cleanModelName nm))).isSome = true :=
          (any_iff_find_isSome _ models).1 hbase
        rcases hf : models.find? (fun mdl => strStarts mdl (baseOf (cleanModelName nm) ++ ":") ||
            mdl == baseOf (cleanModelName nm)) with _ | mm
        · rw [hf] at hfind
          cases hfind
        · constructor
          · simp [is_model_available, hne]
            exact Or.inr (Or.inr (Or.inl hbasem))
          · simp [get_actual_model_name, hne, hdirm, hlatm, hf]

/-- Evaluation of `model_resolution_agreement_nonfuzzy` on a base-name match:
requested `"llama3"`, detected `["llama3:8b"]`. -/
theorem model_resolution_agreement_nonfuzzy_witness :
    is_model_available ["llama3:8b"] "llama3" = true ∧
    (get_actual_model_name ["llama3:8b"] "llama3").isSome = true :=
  (model_resolution_agreement_nonfuzzy ["llama3:8b"] "llama3").2.2.2 (by decide)

end MCPFed
